import Mathlib

/-!
Verification of the command-guardian decision-and-audit pipeline.

The Python sources are shallowly embedded: regular-expression patterns
(Python `re` with `re.search`, `re.I`) are modeled by an executable matcher
over an explicit regex AST, pure functions (`classify`, `evaluate`,
`find_valid_token`) become Lean functions, and the stateful runner
(`guardian/runner.py: run`) becomes an explicit state-passing function over
an event trace.  The SHA-256 digest used by the receipt chain is abstracted
as a parameter `digest`; everything else is executable.
-/

namespace Guardian

/-! ### Character helpers (ASCII semantics of Python's `re` classes) -/

/-- Python whitespace class `\s` (ASCII part): space, tab, newline, carriage
return, vertical tab, form feed. -/
def isPySpace (c : Char) : Bool :=
  c == ' ' || c == '\t' || c == '\n' || c == '\r' || c == '\x0b' || c == '\x0c'

/-- Python word-character class `\w` (ASCII part): letters, digits, underscore. -/
def isWordC (c : Char) : Bool :=
  ('a' ≤ c && c ≤ 'z') || ('A' ≤ c && c ≤ 'Z') || ('0' ≤ c && c ≤ '9') || c == '_'

/-- ASCII lower-casing, as used to model `re.I` case-insensitive matching. -/
def lowerC (c : Char) : Char :=
  if 'A' ≤ c && c ≤ 'Z' then Char.ofNat (c.toNat + 32) else c

/-- Python `str.strip()` restricted to ASCII whitespace. -/
def pyStrip (t : String) : String :=
  ⟨((t.data.dropWhile isPySpace).reverse.dropWhile isPySpace).reverse⟩

/-- `listPfxOf n h`: the list `n` is a prefix of `h` (executable). -/
def listPfxOf : List Char → List Char → Bool
  | [], _ => true
  | _ :: _, [] => false
  | a :: as, b :: bs => a == b && listPfxOf as bs

/-- `listSub n h`: `n` occurs as a contiguous sublist of `h` (executable),
modeling Python's `needle in haystack` on strings. -/
def listSub (needle : List Char) : List Char → Bool
  | [] => listPfxOf needle []
  | c :: cs => listPfxOf needle (c :: cs) || listSub needle cs

/-- Python's substring test `needle in hay`. -/
def strHas (hay needle : String) : Bool := listSub needle.data hay.data

/-- Python `str.lower()` (ASCII). -/
def lowerStr (t : String) : String := ⟨t.data.map lowerC⟩

/-! ### Regex AST and matcher

The AST covers exactly the constructs used by the guardian's patterns:
character classes, concatenation, alternation, Kleene star, the anchors
`^` and `$`, and the word boundary `\b`. -/

inductive Regex where
  | eps : Regex
  | cls (p : Char → Bool) : Regex
  | cat (a b : Regex) : Regex
  | alt (a b : Regex) : Regex
  | star (a : Regex) : Regex
  | bol : Regex
  | eol : Regex
  | wordB : Regex

/-- Structural size of a regex (used for the fuel bound of the matcher). -/
def rsize : Regex → Nat
  | .eps => 1
  | .cls _ => 1
  | .bol => 1
  | .eol => 1
  | .wordB => 1
  | .cat a b => rsize a + rsize b + 1
  | .alt a b => rsize a + rsize b + 1
  | .star a => rsize a + 1

/-- Is position `i` of `s` a `\b` word boundary (Python semantics)? -/
def atWordB (s : List Char) (i : Nat) : Bool :=
  let pre := decide (0 < i) && (match s[i - 1]? with
    | some c => isWordC c
    | none => false)
  let cur := match s[i]? with
    | some c => isWordC c
    | none => false
  pre != cur

/-- Is position `i` of `s` an `$` anchor position (end of string, or just
before a final newline, as in Python without `re.M`)? -/
def atEol (s : List Char) (i : Nat) : Bool :=
  i == s.length || (i + 1 == s.length && s[i]? == some '\n')

/-- Fuel-bounded matcher: `mrun s fuel r i` returns the end positions `j`
such that `s[i..j)` matches `r`.  Structural recursion on `fuel`; the fuel
bound `rsize r + (s.length + 1 - i)` is proved sufficient below
(`mrun_complete`), and every returned position is a true match
(`mrun_sound`). -/
def mrun (s : List Char) : Nat → Regex → Nat → List Nat
  | 0, _, _ => []
  | fuel + 1, r, i =>
    match r with
    | .eps => [i]
    | .cls p =>
      match s[i]? with
      | some c => if p c then [i + 1] else []
      | none => []
    | .bol => if i == 0 then [i] else []
    | .eol => if atEol s i then [i] else []
    | .wordB => if atWordB s i then [i] else []
    | .cat a b => (mrun s fuel a i).flatMap (fun j => mrun s fuel b j)
    | .alt a b => mrun s fuel a i ++ mrun s fuel b i
    | .star a =>
      i :: ((mrun s fuel a i).filter (fun j => decide (i < j))).flatMap
        (fun j => mrun s fuel (.star a) j)

/-- A sufficient fuel for matching `r` anywhere in `s`. -/
def mfuel (r : Regex) (s : List Char) : Nat := rsize r + s.length + 1

/-- Python `pattern.search(text)`: the pattern matches starting at some
position of the text. -/
def rsearch (r : Regex) (str : String) : Bool :=
  let s := str.data
  (List.range (s.length + 1)).any (fun i => !(mrun s (mfuel r s) r i).isEmpty)

/-! ### Declarative match semantics and adequacy of the matcher -/

/-- `RMatch s r i j`: the slice `s[i..j)` is matched by `r`, with anchors
and boundaries interpreted at absolute positions (standard regex
semantics, matching Python `re`). -/
inductive RMatch (s : List Char) : Regex → Nat → Nat → Prop where
  | eps (i : Nat) : i ≤ s.length → RMatch s .eps i i
  | cls (p : Char → Bool) (i : Nat) (c : Char) :
      s[i]? = some c → p c = true → RMatch s (.cls p) i (i + 1)
  | bol : RMatch s .bol 0 0
  | eol (i : Nat) : atEol s i = true → RMatch s .eol i i
  | wordB (i : Nat) : atWordB s i = true → RMatch s .wordB i i
  | catm {a b : Regex} {i j k : Nat} :
      RMatch s a i j → RMatch s b j k → RMatch s (.cat a b) i k
  | altL {a b : Regex} {i j : Nat} : RMatch s a i j → RMatch s (.alt a b) i j
  | altR {a b : Regex} {i j : Nat} : RMatch s b i j → RMatch s (.alt a b) i j
  | starNil {a : Regex} (i : Nat) : i ≤ s.length → RMatch s (.star a) i i
  | starCons {a : Regex} {i j k : Nat} :
      RMatch s a i j → RMatch s (.star a) j k → RMatch s (.star a) i k

/-- A nonempty list (as a boolean) has a member. -/
theorem exists_mem_of_isEmpty_false {α : Type} {l : List α} (h : l.isEmpty = false) :
    ∃ a, a ∈ l := by
  cases l with
  | nil => simp [List.isEmpty] at h
  | cons a t => exact ⟨a, List.mem_cons_self a t⟩

/-- A list with a member is boolean-nonempty. -/
theorem isEmpty_false_of_mem {α : Type} {l : List α} {a : α} (h : a ∈ l) :
    l.isEmpty = false := by
  cases l with
  | nil => simp at h
  | cons b t => rfl

theorem lt_length_of_getElem?_some {α : Type} {l : List α} {i : Nat} {a : α}
    (h : l[i]? = some a) : i < l.length := by
  by_contra hc
  rw [List.getElem?_eq_none_iff.mpr (by omega)] at h
  exact Option.noConfusion h

theorem rsize_pos (r : Regex) : 1 ≤ rsize r := by
  cases r <;> simp only [rsize] <;> omega

theorem atEol_le {s : List Char} {i : Nat} (h : atEol s i = true) : i ≤ s.length := by
  unfold atEol at h
  rcases Bool.or_eq_true_iff.mp h with h1 | h2
  · have : i = s.length := by simpa using h1
    omega
  · have : i + 1 = s.length := by simpa using (Bool.and_eq_true_iff.mp h2).1
    omega

theorem atWordB_le {s : List Char} {i : Nat} (h : atWordB s i = true) : i ≤ s.length := by
  unfold atWordB at h
  by_cases hc : i ≤ s.length
  · exact hc
  · exfalso
    have hge : s.length < i := Nat.lt_of_not_le hc
    have h1 : s[i]? = none := List.getElem?_eq_none_iff.mpr (by omega)
    have h2 : s[i - 1]? = none := List.getElem?_eq_none_iff.mpr (by omega)
    rw [h1, h2] at h
    simp at h

/-- Every match relation respects position bounds. -/
theorem RMatch.bounds {s : List Char} {r : Regex} {i j : Nat}
    (h : RMatch s r i j) : i ≤ j ∧ j ≤ s.length := by
  induction h with
  | eps i hi => exact ⟨Nat.le_refl i, hi⟩
  | cls p i c hg _ =>
    have : i < s.length := lt_length_of_getElem?_some hg
    omega
  | bol => exact ⟨Nat.le_refl 0, Nat.zero_le _⟩
  | eol i he => exact ⟨Nat.le_refl i, atEol_le he⟩
  | wordB i hw => exact ⟨Nat.le_refl i, atWordB_le hw⟩
  | catm _ _ ih1 ih2 => omega
  | altL _ ih => exact ih
  | altR _ ih => exact ih
  | starNil i hi => exact ⟨Nat.le_refl i, hi⟩
  | starCons _ _ ih1 ih2 => omega

/-- Soundness of the fuel-bounded matcher: every returned end position is a
real match. -/
theorem mrun_sound {s : List Char} :
    ∀ (fuel : Nat) (r : Regex) (i j : Nat), i ≤ s.length →
      j ∈ mrun s fuel r i → RMatch s r i j := by
  intro fuel
  induction fuel with
  | zero => intro r i j _ hj; simp [mrun] at hj
  | succ f ih =>
    intro r i j hi hj
    match r with
    | .eps =>
      simp [mrun] at hj
      subst hj; exact RMatch.eps _ hi
    | .cls p =>
      simp only [mrun] at hj
      cases hg : s[i]? with
      | none => rw [hg] at hj; simp at hj
      | some c =>
        rw [hg] at hj
        by_cases hp : p c = true
        · simp [hp] at hj
          subst hj
          exact RMatch.cls p i c hg hp
        · simp [hp] at hj
    | .bol =>
      simp only [mrun] at hj
      by_cases h0 : i = 0
      · subst h0; simp at hj; subst hj; exact RMatch.bol
      · simp [h0] at hj
    | .eol =>
      simp only [mrun] at hj
      by_cases he : atEol s i = true
      · simp [he] at hj; subst hj; exact RMatch.eol _ he
      · simp [he] at hj
    | .wordB =>
      simp only [mrun] at hj
      by_cases hw : atWordB s i = true
      · simp [hw] at hj; subst hj; exact RMatch.wordB _ hw
      · simp [hw] at hj
    | .cat a b =>
      simp only [mrun, List.mem_flatMap] at hj
      obtain ⟨m, hm, hjm⟩ := hj
      have h1 := ih a i m hi hm
      have hb := h1.bounds
      have h2 := ih b m j hb.2 hjm
      exact RMatch.catm h1 h2
    | .alt a b =>
      simp only [mrun, List.mem_append] at hj
      rcases hj with hj | hj
      · exact RMatch.altL (ih a i j hi hj)
      · exact RMatch.altR (ih b i j hi hj)
    | .star a =>
      simp only [mrun, List.mem_cons, List.mem_flatMap, List.mem_filter] at hj
      rcases hj with hj | ⟨m, ⟨hm, _⟩, hjm⟩
      · subst hj; exact RMatch.starNil _ hi
      · have h1 := ih a i m hi hm
        have hb := h1.bounds
        have h2 := ih (.star a) m j hb.2 hjm
        exact RMatch.starCons h1 h2

/-- Fuel monotonicity of the matcher. -/
theorem mrun_mono {s : List Char} :
    ∀ (f' f : Nat) (r : Regex) (i j : Nat), f ≤ f' →
      j ∈ mrun s f r i → j ∈ mrun s f' r i := by
  intro f'
  induction f' with
  | zero =>
    intro f r i j hf hj
    have : f = 0 := Nat.le_zero.mp hf
    subst this
    simp [mrun] at hj
  | succ g ih =>
    intro f r i j hf hj
    match f, hj with
    | 0, hj => simp [mrun] at hj
    | fp + 1, hj =>
      have hfp : fp ≤ g := Nat.le_of_succ_le_succ hf
      match r with
      | .eps => simpa [mrun] using hj
      | .cls p => simpa [mrun] using hj
      | .bol => simpa [mrun] using hj
      | .eol => simpa [mrun] using hj
      | .wordB => simpa [mrun] using hj
      | .cat a b =>
        simp only [mrun, List.mem_flatMap] at hj ⊢
        obtain ⟨m, hm, hjm⟩ := hj
        exact ⟨m, ih fp a i m hfp hm, ih fp b m j hfp hjm⟩
      | .alt a b =>
        simp only [mrun, List.mem_append] at hj ⊢
        rcases hj with hj | hj
        · exact Or.inl (ih fp a i j hfp hj)
        · exact Or.inr (ih fp b i j hfp hj)
      | .star a =>
        simp only [mrun, List.mem_cons, List.mem_flatMap, List.mem_filter] at hj ⊢
        rcases hj with hj | ⟨m, ⟨hm, hlt⟩, hjm⟩
        · exact Or.inl hj
        · exact Or.inr ⟨m, ⟨ih fp a i m hfp hm, hlt⟩, ih fp (.star a) m j hfp hjm⟩

/-- Completeness of the matcher: fuel `rsize r + (s.length + 1 - i)`
suffices to find every match. -/
theorem mrun_complete {s : List Char} {r : Regex} {i j : Nat}
    (h : RMatch s r i j) :
    ∀ f : Nat, rsize r + (s.length + 1 - i) ≤ f → j ∈ mrun s f r i := by
  induction h with
  | eps i hi =>
    intro f hf
    obtain ⟨fp, rfl⟩ : ∃ fp, f = fp + 1 := ⟨f - 1, by simp only [rsize] at hf; omega⟩
    simp [mrun]
  | cls p i c hg hp =>
    intro f hf
    obtain ⟨fp, rfl⟩ : ∃ fp, f = fp + 1 := ⟨f - 1, by simp only [rsize] at hf; omega⟩
    simp [mrun, hg, hp]
  | bol =>
    intro f hf
    obtain ⟨fp, rfl⟩ : ∃ fp, f = fp + 1 := ⟨f - 1, by simp only [rsize] at hf; omega⟩
    simp [mrun]
  | eol i he =>
    intro f hf
    obtain ⟨fp, rfl⟩ : ∃ fp, f = fp + 1 := ⟨f - 1, by simp only [rsize] at hf; omega⟩
    simp [mrun, he]
  | wordB i hw =>
    intro f hf
    obtain ⟨fp, rfl⟩ : ∃ fp, f = fp + 1 := ⟨f - 1, by simp only [rsize] at hf; omega⟩
    simp [mrun, hw]
  | catm h1 h2 ih1 ih2 =>
    intro f hf
    rename_i a b i j k
    have hb1 := h1.bounds
    have hsa := rsize_pos a
    have hsb := rsize_pos b
    simp only [rsize] at hf
    obtain ⟨fp, rfl⟩ : ∃ fp, f = fp + 1 := ⟨f - 1, by omega⟩
    simp only [mrun, List.mem_flatMap]
    exact ⟨j, ih1 fp (by omega), ih2 fp (by omega)⟩
  | altL h1 ih =>
    intro f hf
    rename_i a b i j
    have hsb := rsize_pos b
    simp only [rsize] at hf
    obtain ⟨fp, rfl⟩ : ∃ fp, f = fp + 1 := ⟨f - 1, by omega⟩
    simp only [mrun, List.mem_append]
    exact Or.inl (ih fp (by omega))
  | altR h1 ih =>
    intro f hf
    rename_i a b i j
    have hsa := rsize_pos a
    simp only [rsize] at hf
    obtain ⟨fp, rfl⟩ : ∃ fp, f = fp + 1 := ⟨f - 1, by omega⟩
    simp only [mrun, List.mem_append]
    exact Or.inr (ih fp (by omega))
  | starNil i hi =>
    intro f hf
    obtain ⟨fp, rfl⟩ : ∃ fp, f = fp + 1 := ⟨f - 1, by simp only [rsize] at hf; omega⟩
    simp [mrun]
  | starCons h1 h2 ih1 ih2 =>
    intro f hf
    rename_i a i j k
    have hb1 := h1.bounds
    by_cases hij : i < j
    · simp only [rsize] at hf
      obtain ⟨fp, rfl⟩ : ∃ fp, f = fp + 1 := ⟨f - 1, by omega⟩
      simp only [mrun, List.mem_cons, List.mem_flatMap, List.mem_filter]
      refine Or.inr ⟨j, ⟨ih1 fp (by omega), by simpa using hij⟩,
        ih2 fp (by simp only [rsize]; omega)⟩
    · have hji : j = i := by omega
      subst hji
      exact ih2 f hf

/-- Adequacy of `rsearch` against the declarative semantics: the executable
search succeeds iff the pattern matches somewhere in the string. -/
theorem rsearch_iff {r : Regex} {str : String} :
    rsearch r str = true ↔ ∃ i j, RMatch str.data r i j := by
  unfold rsearch
  simp only [List.any_eq_true, List.mem_range]
  constructor
  · rintro ⟨i, hi, hne⟩
    have hne' : (mrun str.data (mfuel r str.data) r i).isEmpty = false := by
      cases hh : (mrun str.data (mfuel r str.data) r i).isEmpty
      · rfl
      · rw [hh] at hne; simp at hne
    obtain ⟨j, hj⟩ := exists_mem_of_isEmpty_false hne'
    exact ⟨i, j, mrun_sound _ r i j (by omega) hj⟩
  · rintro ⟨i, j, hm⟩
    have hb := hm.bounds
    refine ⟨i, by omega, ?_⟩
    have hj : j ∈ mrun str.data (mfuel r str.data) r i :=
      mrun_complete hm (mfuel r str.data) (by unfold mfuel; omega)
    rw [isEmpty_false_of_mem hj]
    rfl

/-! ### Pattern combinators

Helpers to transcribe the Python regex literals.  All literal characters
are matched case-insensitively (`re.I` is set on every guardian pattern). -/

/-- One literal character, case-insensitive (`re.I`). -/
def rchar (c : Char) : Regex := .cls (fun x => lowerC x == lowerC c)

/-- A literal string, case-insensitive. -/
def rstr (t : String) : Regex := t.data.foldr (fun c acc => .cat (rchar c) acc) .eps

/-- `\s` -/
def wsC : Regex := .cls isPySpace

/-- `\s*` -/
def wsS : Regex := .star wsC

/-- `\s+` -/
def wsP : Regex := .cat wsC (.star wsC)

/-- `.` (any character except newline, Python default). -/
def dotC : Regex := .cls (fun c => !(c == '\n'))

/-- `.*` -/
def dotS : Regex := .star dotC

/-- `(...)?` -/
def ropt (a : Regex) : Regex := .alt a .eps

/-- `[A-Za-z]` -/
def alphaC : Regex := .cls (fun c => ('A' ≤ c && c ≤ 'Z') || ('a' ≤ c && c ≤ 'z'))

/-- `[A-Za-z]*` -/
def alphaS : Regex := .star alphaC

/-- `\w` -/
def wC : Regex := .cls isWordC

/-- `\w+` -/
def wP : Regex := .cat wC (.star wC)

/-- Concatenation of a list of regexes. -/
def rcat (l : List Regex) : Regex := l.foldr .cat .eps

/-- The guardian's command-separator anchor `(^|\||\;|\&\&)`. -/
def sepA : Regex := .alt .bol (.alt (rchar '|') (.alt (rchar ';') (rstr "&&")))

/-! ### Classifier (`guardian/classifier.py`) -/

def SAFE_ECHO : String := "safe_echo"
def SHELL_RUN : String := "shell_run"
def FILE_DELETE : String := "file_delete"
def NETWORK_EXEC : String := "network_exec"
def PRIVILEGE_ESCALATION : String := "privilege_escalation"
def DISK_FORMAT : String := "disk_format"
def PROCESS_KILL : String := "process_kill"
def SYSTEM_CONFIG : String := "system_config"

/-- `(^|\||\;|\&\&)\s*(mkfs|format\s+\w+\:|diskpart|dd\s+)` (re.I, re.X). -/
def pDisk1 : Regex :=
  rcat [sepA, wsS,
    .alt (rstr "mkfs")
      (.alt (rcat [rstr "format", wsP, wP, rchar ':'])
        (.alt (rstr "diskpart") (rcat [rstr "dd", wsP])))]

/-- `\bdd\b.*\bof=/dev/` (re.I). -/
def pDisk2 : Regex :=
  rcat [.wordB, rstr "dd", .wordB, dotS, .wordB, rstr "of=/dev/"]

/-- `(curl|wget)\s+.*\|\s*(ba)?sh` (re.I). -/
def pNet1 : Regex :=
  rcat [.alt (rstr "curl") (rstr "wget"), wsP, dotS, rchar '|', wsS,
    ropt (rstr "ba"), rstr "sh"]

/-- `powershell\s+.*(\biex\b|\bInvoke-Expression\b|\biwr\b.*\|\s*iex)` (re.I). -/
def pNet2 : Regex :=
  rcat [rstr "powershell", wsP, dotS,
    .alt (rcat [.wordB, rstr "iex", .wordB])
      (.alt (rcat [.wordB, rstr "Invoke-Expression", .wordB])
        (rcat [.wordB, rstr "iwr", .wordB, dotS, rchar '|', wsS, rstr "iex"]))]

/-- `(curl|wget|Invoke-WebRequest|iwr)\s+.*\|\s*(iex|Invoke-Expression|sh|bash)` (re.I). -/
def pNet3 : Regex :=
  rcat [.alt (rstr "curl")
      (.alt (rstr "wget") (.alt (rstr "Invoke-WebRequest") (rstr "iwr"))),
    wsP, dotS, rchar '|', wsS,
    .alt (rstr "iex")
      (.alt (rstr "Invoke-Expression") (.alt (rstr "sh") (rstr "bash")))]

/-- `(^|\||\;|\&\&)\s*rm\s+` (re.I). -/
def pDel1 : Regex := rcat [sepA, wsS, rstr "rm", wsP]

/-- `(^|\||\;|\&\&)\s*(del|rmdir|Remove-Item)\s+` (re.I). -/
def pDel2 : Regex :=
  rcat [sepA, wsS, .alt (rstr "del") (.alt (rstr "rmdir") (rstr "Remove-Item")), wsP]

/-- `(^|\||\;|\&\&)\s*(sudo|doas|runas|pkexec)\s+` (re.I). -/
def pPriv1 : Regex :=
  rcat [sepA, wsS,
    .alt (rstr "sudo") (.alt (rstr "doas") (.alt (rstr "runas") (rstr "pkexec"))), wsP]

/-- `\bchmod\s+.*\b777\b` (re.I). -/
def pPriv2 : Regex :=
  rcat [.wordB, rstr "chmod", wsP, dotS, .wordB, rstr "777", .wordB]

/-- `\bchmod\s+-R\s+` (re.I). -/
def pPriv3 : Regex := rcat [.wordB, rstr "chmod", wsP, rstr "-R", wsP]

/-- `(^|\||\;|\&\&)\s*(kill|killall|pkill)\s+` (re.I). -/
def pKill1 : Regex :=
  rcat [sepA, wsS, .alt (rstr "kill") (.alt (rstr "killall") (rstr "pkill")), wsP]

/-- `(^|\||\;|\&\&)\s*taskkill\s+` (re.I). -/
def pKill2 : Regex := rcat [sepA, wsS, rstr "taskkill", wsP]

/-- `(^|\||\;|\&\&)\s*(sysctl|systemctl|launchctl|reg\s+(add|delete))\s+` (re.I). -/
def pSys1 : Regex :=
  rcat [sepA, wsS,
    .alt (rstr "sysctl")
      (.alt (rstr "systemctl")
        (.alt (rstr "launchctl")
          (rcat [rstr "reg", wsP, .alt (rstr "add") (rstr "delete")]))), wsP]

/-- `\bregedit\b` (re.I). -/
def pSys2 : Regex := rcat [.wordB, rstr "regedit", .wordB]

/-- `^\s*echo\s+` (re.I). -/
def pSafe1 : Regex := rcat [.bol, wsS, rstr "echo", wsP]

/-- `^\s*printf\s+` (re.I). -/
def pSafe2 : Regex := rcat [.bol, wsS, rstr "printf", wsP]

/-- A classification rule `(intent, pattern)`, mirroring `_Rule`. -/
structure CRule where
  intent : String
  pattern : Regex

/-- The ordered classification rule list `_RULES` (first match wins). -/
def RULES : List CRule :=
  [⟨DISK_FORMAT, pDisk1⟩, ⟨DISK_FORMAT, pDisk2⟩,
   ⟨NETWORK_EXEC, pNet1⟩, ⟨NETWORK_EXEC, pNet2⟩, ⟨NETWORK_EXEC, pNet3⟩,
   ⟨FILE_DELETE, pDel1⟩, ⟨FILE_DELETE, pDel2⟩,
   ⟨PRIVILEGE_ESCALATION, pPriv1⟩, ⟨PRIVILEGE_ESCALATION, pPriv2⟩,
   ⟨PRIVILEGE_ESCALATION, pPriv3⟩,
   ⟨PROCESS_KILL, pKill1⟩, ⟨PROCESS_KILL, pKill2⟩,
   ⟨SYSTEM_CONFIG, pSys1⟩, ⟨SYSTEM_CONFIG, pSys2⟩,
   ⟨SAFE_ECHO, pSafe1⟩, ⟨SAFE_ECHO, pSafe2⟩]

/-- `classifier.classify`: strip the command, return the intent of the
first matching rule, falling back to `shell_run`. -/
def classify (command : String) : String :=
  let cmd := pyStrip command
  match RULES.find? (fun r => rsearch r.pattern cmd) with
  | some r => r.intent
  | none => SHELL_RUN

/-! ### Policy engine (`guardian/policy.py`) -/

inductive Decision where
  | ALLOW
  | DENY
deriving DecidableEq, Repr

/-- A block rule `(description, pattern)`, mirroring `_BlockRule`. -/
structure BlockRule where
  description : String
  pattern : Regex

/-- `\brm\s+.*-[A-Za-z]*r[A-Za-z]*f[A-Za-z]*\s+/\s*$` (re.I). -/
def bRm1 : Regex :=
  rcat [.wordB, rstr "rm", wsP, dotS, rchar '-', alphaS, rchar 'r', alphaS,
    rchar 'f', alphaS, wsP, rchar '/', wsS, .eol]

/-- `\brm\s+.*-[A-Za-z]*f[A-Za-z]*r[A-Za-z]*\s+/\s*$` (re.I). -/
def bRm2 : Regex :=
  rcat [.wordB, rstr "rm", wsP, dotS, rchar '-', alphaS, rchar 'f', alphaS,
    rchar 'r', alphaS, wsP, rchar '/', wsS, .eol]

/-- `\brm\s+.*-[A-Za-z]*r[A-Za-z]*f[A-Za-z]*\s+/\*` (re.I). -/
def bRm3 : Regex :=
  rcat [.wordB, rstr "rm", wsP, dotS, rchar '-', alphaS, rchar 'r', alphaS,
    rchar 'f', alphaS, wsP, rstr "/*"]

/-- `(curl|wget)\s+.*\|\s*(ba)?sh` (re.I). -/
def bPipeSh : Regex :=
  rcat [.alt (rstr "curl") (rstr "wget"), wsP, dotS, rchar '|', wsS,
    ropt (rstr "ba"), rstr "sh"]

/-- `powershell\s+.*(\biex\b|\bInvoke-Expression\b)` (re.I). -/
def bPs1 : Regex :=
  rcat [rstr "powershell", wsP, dotS,
    .alt (rcat [.wordB, rstr "iex", .wordB])
      (rcat [.wordB, rstr "Invoke-Expression", .wordB])]

/-- `(iwr|Invoke-WebRequest)\s+.*\|\s*(iex|Invoke-Expression)` (re.I). -/
def bPs2 : Regex :=
  rcat [.alt (rstr "iwr") (rstr "Invoke-WebRequest"), wsP, dotS, rchar '|', wsS,
    .alt (rstr "iex") (rstr "Invoke-Expression")]

/-- `(^|\s)(mkfs|diskpart)\b` (re.I). -/
def bFmt1 : Regex :=
  rcat [.alt .bol wsC, .alt (rstr "mkfs") (rstr "diskpart"), .wordB]

/-- `\bformat\s+[A-Za-z]\:` (re.I). -/
def bFmt2 : Regex := rcat [.wordB, rstr "format", wsP, alphaC, rchar ':']

/-- `\bdd\b.*\bof=/dev/` (re.I). -/
def bDd : Regex := rcat [.wordB, rstr "dd", .wordB, dotS, .wordB, rstr "of=/dev/"]

/-- The ordered always-block rule list `_ALWAYS_BLOCK`. -/
def ALWAYS_BLOCK : List BlockRule :=
  [⟨"Destructive root deletion (rm -rf /)", bRm1⟩,
   ⟨"Destructive root deletion (rm -rf /)", bRm2⟩,
   ⟨"Destructive root deletion (rm -rf /*)", bRm3⟩,
   ⟨"Network download piped to shell execution (curl|wget … | bash/sh)", bPipeSh⟩,
   ⟨"PowerShell download-and-execute pattern", bPs1⟩,
   ⟨"PowerShell download-and-execute pattern", bPs2⟩,
   ⟨"Disk formatting command (mkfs/format/diskpart)", bFmt1⟩,
   ⟨"Disk formatting command (format drive)", bFmt2⟩,
   ⟨"Destructive device write (dd … of=/dev/…)", bDd⟩]

/-- `RISKY_INTENTS` (a Python set; only membership is ever used). -/
def RISKY_INTENTS : List String :=
  [FILE_DELETE, PRIVILEGE_ESCALATION, PROCESS_KILL, SYSTEM_CONFIG]

/-- `PolicyResult` dataclass. -/
structure PolicyResult where
  decision : Decision
  reason : String
  requires_auth : Bool := false
  suggestion : Option String := none
deriving DecidableEq, Repr

/-- `policy._suggestion_for`. -/
def suggestionFor (description : String) : Option String :=
  let d := lowerStr description
  if strHas d "root deletion" then
    some "Delete specific paths instead: rm -rf ./my_folder"
  else if strHas d "pipe" || strHas d "download" then
    some "Download the script first, review it, then run: curl -O script.sh && cat script.sh && bash script.sh"
  else if strHas d "format" || strHas d "diskpart" then
    some "Use safe disk utilities with explicit confirmation."
  else if strHas d "dd" || strHas d "device write" then
    some "Double-check the target device; use a file path instead of a block device."
  else none

/-- `policy._suggestion_for_intent`. -/
def suggestionForIntent (intent : String) (command : String) : Option String :=
  if intent == FILE_DELETE then
    some "Use guardian allow file_delete --ttl 30 to pre-authorize, or confirm interactively."
  else if intent == PRIVILEGE_ESCALATION then
    some "Review the command carefully. Use guardian allow privilege_escalation --ttl 30."
  else if intent == PROCESS_KILL then
    some "Consider graceful termination (kill <pid>) before kill -9."
  else if intent == SYSTEM_CONFIG then
    some "Back up your configuration first."
  else none

/-- The boolean test "some always-block rule matches `command`"; the
policy's block gate is the first match of this predicate. -/
def blockFind (command : String) : Option BlockRule :=
  ALWAYS_BLOCK.find? (fun rule => rsearch rule.pattern command)

/-- `policy.evaluate`: block gate, then risky-intent gate, then default
allow. -/
def evaluate (command : String) (intent : String) : PolicyResult :=
  match blockFind command with
  | some rule =>
    { decision := .DENY
      reason := "BLOCKED: " ++ rule.description
      suggestion := suggestionFor rule.description }
  | none =>
    if RISKY_INTENTS.contains intent then
      { decision := .DENY
        reason := "Risky intent (" ++ intent ++ ") requires explicit authorization."
        requires_auth := true
        suggestion := suggestionForIntent intent command }
    else
      { decision := .ALLOW, reason := "Command allowed by policy." }

/-! ### Token store (`guardian/tokens.py`)

Instants are modeled as integers.  `parseTime` abstracts
`datetime.fromisoformat` (plus the UTC coercion applied to naive stamps);
it is supplied by the environment, so token expiry strings can be compared
with the current instant exactly as `find_valid_token` does. -/

/-- A stored allow token (the JSON record written by `issue_token`). -/
structure Token where
  token_id : String
  intent : String
  issued_at : String
  expires_at : String
  ttl : Nat
  decision_hash : String
deriving DecidableEq, Repr

/-! ### Receipts (`guardian/receipts.py`)

The receipt log for one day-file is a list of records.  SHA-256 over the
canonical JSON of the non-`hash` fields is abstracted as a parameter
`digest : ReceiptData → String`; `ReceiptData` is the record minus its
`hash` field, which is exactly the dict `_compute_hash` serializes. -/

/-- The eight hashed fields of a receipt (everything except `hash`). -/
structure ReceiptData where
  ts : String
  intent : String
  command : String
  decision : String
  reason : String
  token_id : Option String
  expires_at : Option String
  prev_hash : String
deriving DecidableEq, Repr

/-- A full receipt record: the hashed fields plus the stored `hash`. -/
structure Receipt where
  data : ReceiptData
  hash : String
deriving DecidableEq, Repr

/-- `GENESIS_HASH = "0" * 64`. -/
def GENESIS_HASH : String :=
  "0000000000000000000000000000000000000000000000000000000000000000"

/-- `_last_hash`: hash of the last record of the day-file, or genesis. -/
def lastHash (log : List Receipt) : String :=
  match log.getLast? with
  | none => GENESIS_HASH
  | some r => r.hash

/-- The caller-supplied fields of one `write_receipt` call (with the
timestamp the clock produced for it). -/
structure RInput where
  ts : String
  intent : String
  command : String
  decision : String
  reason : String
  token_id : Option String
  expires_at : Option String
deriving DecidableEq, Repr

/-- Build the record dict of `write_receipt` before the hash is added. -/
def mkReceiptD (inp : RInput) (prev : String) : ReceiptData :=
  { ts := inp.ts, intent := inp.intent, command := inp.command
    decision := inp.decision, reason := inp.reason
    token_id := inp.token_id, expires_at := inp.expires_at, prev_hash := prev }

/-- One `write_receipt` record: `prev_hash` from the log tail, `hash`
computed by the digest over the other fields. -/
def mkReceipt (digest : ReceiptData → String) (inp : RInput) (prev : String) : Receipt :=
  let d := mkReceiptD inp prev
  { data := d, hash := digest d }

/-- Appending a sequence of receipts via `write_receipt` to a day-file. -/
def writeChain (digest : ReceiptData → String) : List RInput → List Receipt → List Receipt
  | [], log => log
  | inp :: rest, log =>
    writeChain digest rest (log ++ [mkReceipt digest inp (lastHash log)])

/-- Concrete stand-in digest used to instantiate witnesses: the canonical
serialization itself, with the keys in the sorted order used by
`json.dumps(..., sort_keys=True)` (command, decision, expires_at, intent,
prev_hash, reason, token_id, ts). -/
def canonicalString (d : ReceiptData) : String :=
  let opt : Option String → String := fun o =>
    match o with
    | none => "null"
    | some v => "str:" ++ v
  "command=" ++ d.command ++ "&decision=" ++ d.decision ++
    "&expires_at=" ++ opt d.expires_at ++ "&intent=" ++ d.intent ++
    "&prev_hash=" ++ d.prev_hash ++ "&reason=" ++ d.reason ++
    "&token_id=" ++ opt d.token_id ++ "&ts=" ++ d.ts

/-! ### Chain verifier (`guardian/verify.py`) -/

/-- `VerifyResult` dataclass. -/
structure VerifyResult where
  ok : Bool
  total : Nat
  failed_index : Option Nat := none
  failed_reason : Option String := none
deriving DecidableEq, Repr

/-- The failure message for a `prev_hash` mismatch at a record. -/
def prevMismatchMsg (idx : Nat) (expected got : String) : String :=
  "prev_hash mismatch at record " ++ toString idx ++ ": expected " ++
    expected.take 16 ++ "…, got " ++ got.take 16 ++ "…"

/-- The failure message for a recomputed-hash mismatch at a record. -/
def hashMismatchMsg (idx : Nat) (expected got : String) : String :=
  "hash mismatch at record " ++ toString idx ++ ": expected " ++
    expected.take 16 ++ "…, got " ++ got.take 16 ++ "…"

/-- The per-day-file loop of `verify_chain`: check each record's linkage
and recomputed digest, returning the first failure (global index and
reason) or `none`. -/
def verifySeg (digest : ReceiptData → String) (gidx : Nat) (dayPrev : String) :
    List Receipt → Option (Nat × String)
  | [] => none
  | r :: rest =>
    if r.data.prev_hash ≠ dayPrev then
      some (gidx, prevMismatchMsg gidx dayPrev r.data.prev_hash)
    else if r.hash ≠ digest r.data then
      some (gidx, hashMismatchMsg gidx (digest r.data) r.hash)
    else
      verifySeg digest (gidx + 1) r.hash rest

/-- The outer loop of `verify_chain` over day-files (chain linkage resets
to genesis at each file; on failure `total` is the failing index, as in
the source). -/
def verifyGo (digest : ReceiptData → String) (gidx : Nat) :
    List (List Receipt) → VerifyResult
  | [] => { ok := true, total := gidx }
  | f :: fs =>
    match verifySeg digest gidx GENESIS_HASH f with
    | some (i, why) =>
      { ok := false, total := i, failed_index := some i, failed_reason := some why }
    | none => verifyGo digest (gidx + f.length) fs

/-- `verify_chain` over the ordered list of day-files. -/
def verify_chain (digest : ReceiptData → String) (files : List (List Receipt)) :
    VerifyResult :=
  verifyGo digest 0 files

/-! ### Runner (`guardian/runner.py`) -/

/-- Observable events of one `run` invocation, in order: receipts written
to the audit log and invocations of the execution collaborator
`_execute_command`. -/
inductive Event where
  | wrote (r : Receipt)
  | exec (command : String)
deriving DecidableEq, Repr

/-- Mutable state of a run: today's receipt file, a clock counter (each
receipt consumes one timestamp), the event trace, and the number of times
the confirmation collaborator has been consulted. -/
structure RunState where
  log : List Receipt
  clock : Nat
  events : List Event
  confirms : Nat
deriving DecidableEq, Repr

/-- The collaborators and ambient data `run` consults: the token file,
the current instant and timestamp parsing (for `find_valid_token`), the
per-receipt timestamps, the result of reading one line from stdin
(`none` models EOFError/KeyboardInterrupt), and the execution
collaborator's result. -/
structure GuardEnv where
  tokens : List Token
  now : Int
  parseTime : String → Int
  tsAt : Nat → String
  interactiveInput : Option String
  execute : String → Int × String

/-- `tokens.find_valid_token`: first stored token for the intent whose
expiry parses to a strictly future instant. -/
def find_valid_token (env : GuardEnv) (intent : String) : Option Token :=
  env.tokens.find? (fun t => t.intent == intent && decide (env.now < env.parseTime t.expires_at))

/-- `receipts.write_receipt` as invoked by the runner: append one record
to today's file, consuming one clock tick for its timestamp and recording
the write in the event trace. -/
def writeReceipt (digest : ReceiptData → String) (env : GuardEnv) (s : RunState)
    (intent command decision reason : String)
    (token_id expires_at : Option String) : Receipt × RunState :=
  let r := mkReceipt digest
    ⟨env.tsAt s.clock, intent, command, decision, reason, token_id, expires_at⟩
    (lastHash s.log)
  (r, { s with
        log := s.log ++ [r]
        clock := s.clock + 1
        events := s.events ++ [Event.wrote r] })

/-- `runner._interactive_confirm`: read a line; EOF/interrupt yields
`False`; otherwise `True` iff the stripped answer is exactly `"ALLOW"`. -/
def interactiveConfirm (env : GuardEnv) : Bool :=
  match env.interactiveInput with
  | none => false
  | some answer => pyStrip answer == "ALLOW"

/-- The confirmation collaborator's verdict: the injected callback if one
was supplied, else the interactive prompt. -/
def confirmOutcome (env : GuardEnv) (cb : Option (String → String → Bool))
    (intent command : String) : Bool :=
  match cb with
  | some f => f intent command
  | none => interactiveConfirm env

/-- `RunResult` dataclass. -/
structure RunResult where
  decision : String
  intent : String
  reason : String
  exit_code : Int
  output : Option String := none
  receipt : Option Receipt := none
deriving DecidableEq, Repr

/-- The outcome of `run`: a normal `RunResult`, or the raised
`ExecutionBlocked` with its message. -/
inductive RunOutcome where
  | result (r : RunResult)
  | blocked (reason : String)
deriving DecidableEq, Repr

/-- Gates 3 and 4 of `run`: re-classify and re-evaluate the same command;
an unconditional block aborts with `ExecutionBlocked` after writing a DENY
receipt; otherwise write the ALLOW receipt and invoke the execution
collaborator. -/
def gate34 (digest : ReceiptData → String) (env : GuardEnv) (command : String)
    (intent : String) (pol : PolicyResult)
    (token_id expires_at : Option String) (s : RunState) : RunOutcome × RunState :=
  let re_intent := classify command
  let re_pol := evaluate command re_intent
  if re_pol.decision = Decision.DENY ∧ re_pol.requires_auth = false then
    let reason := "Re-classification blocked: " ++ re_pol.reason
    let pr := writeReceipt digest env s re_intent command "DENY" reason none none
    (RunOutcome.blocked reason, pr.2)
  else
    let allowReason :=
      if pol.decision = Decision.ALLOW then pol.reason
      else "Authorized (token or interactive)."
    let pr := writeReceipt digest env s intent command "ALLOW" allowReason token_id expires_at
    let eo := env.execute command
    let s2 := { pr.2 with events := pr.2.events ++ [Event.exec command] }
    (RunOutcome.result
      { decision := "ALLOW", intent := intent
        reason := if eo.1 = 0 then "Executed successfully."
                  else "Command exited with code " ++ toString eo.1 ++ "."
        exit_code := eo.1, output := some eo.2, receipt := some pr.1 }, s2)

/-- `runner.run`: the full 4-gate enforcement pipeline. -/
def run (digest : ReceiptData → String) (env : GuardEnv) (command : String)
    (skip_confirm : Bool) (confirm_callback : Option (String → String → Bool))
    (s : RunState) : RunOutcome × RunState :=
  let intent := classify command
  let pol := evaluate command intent
  if pol.decision = Decision.DENY ∧ pol.requires_auth = false then
    let pr := writeReceipt digest env s intent command "DENY" pol.reason none none
    (RunOutcome.result
      { decision := "DENY", intent := intent, reason := pol.reason
        exit_code := 1, receipt := some pr.1 }, pr.2)
  else if pol.requires_auth then
    match find_valid_token env intent with
    | some tok =>
      gate34 digest env command intent pol (some tok.token_id) (some tok.expires_at) s
    | none =>
      if skip_confirm then
        let reason := "Risky intent denied (no valid token, no interactive confirmation)."
        let pr := writeReceipt digest env s intent command "DENY" reason none none
        (RunOutcome.result
          { decision := "DENY", intent := intent, reason := reason
            exit_code := 1, receipt := some pr.1 }, pr.2)
      else
        let authorized := confirmOutcome env confirm_callback intent command
        let s0 := { s with confirms := s.confirms + 1 }
        if authorized then
          gate34 digest env command intent pol none none s0
        else
          let reason := "User declined interactive authorization."
          let pr := writeReceipt digest env s0 intent command "DENY" reason none none
          (RunOutcome.result
            { decision := "DENY", intent := intent, reason := reason
              exit_code := 1, receipt := some pr.1 }, pr.2)
  else
    gate34 digest env command intent pol none none s

/-! ### Chain well-formedness and verifier lemmas -/

/-- `chainOk digest prev log`: each record links to its predecessor (or to
`prev` for the first) and stores the digest of its own non-hash fields. -/
def chainOk (digest : ReceiptData → String) (prev : String) : List Receipt → Bool
  | [] => true
  | r :: rest =>
    (r.data.prev_hash == prev) && (r.hash == digest r.data) && chainOk digest r.hash rest

/-- The hash a new record must link to, relative to a chain start. -/
def lastP (prev : String) : List Receipt → String
  | [] => prev
  | r :: rest => lastP r.hash rest

theorem lastHash_eq_lastP : ∀ (log : List Receipt) (prev : String),
    (match log.getLast? with
     | none => prev
     | some x => x.hash) = lastP prev log := by
  intro log
  induction log with
  | nil => intro prev; rfl
  | cons r rest ih =>
    intro prev
    cases rest with
    | nil => rfl
    | cons y t =>
      rw [List.getLast?_cons_cons]
      exact ih r.hash

theorem lastHash_as_lastP (log : List Receipt) :
    lastHash log = lastP GENESIS_HASH log := by
  unfold lastHash
  exact lastHash_eq_lastP log GENESIS_HASH

theorem chainOk_snoc (digest : ReceiptData → String) :
    ∀ (log : List Receipt) (prev : String) (r : Receipt),
      chainOk digest prev log = true →
      r.data.prev_hash = lastP prev log →
      r.hash = digest r.data →
      chainOk digest prev (log ++ [r]) = true := by
  intro log
  induction log with
  | nil =>
    intro prev r _ hp hh
    simp [chainOk, lastP] at hp ⊢
    exact ⟨hp, hh⟩
  | cons x rest ih =>
    intro prev r hc hp hh
    simp only [chainOk, Bool.and_eq_true, beq_iff_eq] at hc
    obtain ⟨⟨h1, h2⟩, h3⟩ := hc
    simp only [List.cons_append, chainOk, Bool.and_eq_true, beq_iff_eq]
    exact ⟨⟨h1, h2⟩, ih x.hash r h3 hp hh⟩

theorem writeChain_chainOk (digest : ReceiptData → String) :
    ∀ (inputs : List RInput) (log : List Receipt),
      chainOk digest GENESIS_HASH log = true →
      chainOk digest GENESIS_HASH (writeChain digest inputs log) = true := by
  intro inputs
  induction inputs with
  | nil => intro log h; exact h
  | cons inp rest ih =>
    intro log h
    simp only [writeChain]
    apply ih
    apply chainOk_snoc digest log GENESIS_HASH _ h
    · show (mkReceiptD inp (lastHash log)).prev_hash = _
      simp only [mkReceiptD]
      exact lastHash_as_lastP log
    · rfl

theorem writeChain_length (digest : ReceiptData → String) :
    ∀ (inputs : List RInput) (log : List Receipt),
      (writeChain digest inputs log).length = log.length + inputs.length := by
  intro inputs
  induction inputs with
  | nil => intro log; simp [writeChain]
  | cons inp rest ih =>
    intro log
    simp only [writeChain, ih, List.length_append]
    simp
    omega

theorem verifySeg_ok (digest : ReceiptData → String) :
    ∀ (log : List Receipt) (gidx : Nat) (prev : String),
      chainOk digest prev log = true →
      verifySeg digest gidx prev log = none := by
  intro log
  induction log with
  | nil => intro gidx prev _; rfl
  | cons r rest ih =>
    intro gidx prev hc
    simp only [chainOk, Bool.and_eq_true, beq_iff_eq] at hc
    obtain ⟨⟨h1, h2⟩, h3⟩ := hc
    simp only [verifySeg]
    rw [if_neg (by simp [h1]), if_neg (by simp [h2])]
    exact ih (gidx + 1) r.hash h3

/-- "Exactly one field of the record was changed (to a different value)":
the nine-fold case split over the receipt's fields. -/
def MutatedOneField (r r' : Receipt) : Prop :=
  (r'.data.ts ≠ r.data.ts ∧ r'.data.intent = r.data.intent ∧
    r'.data.command = r.data.command ∧ r'.data.decision = r.data.decision ∧
    r'.data.reason = r.data.reason ∧ r'.data.token_id = r.data.token_id ∧
    r'.data.expires_at = r.data.expires_at ∧ r'.data.prev_hash = r.data.prev_hash ∧
    r'.hash = r.hash) ∨
  (r'.data.ts = r.data.ts ∧ r'.data.intent ≠ r.data.intent ∧
    r'.data.command = r.data.command ∧ r'.data.decision = r.data.decision ∧
    r'.data.reason = r.data.reason ∧ r'.data.token_id = r.data.token_id ∧
    r'.data.expires_at = r.data.expires_at ∧ r'.data.prev_hash = r.data.prev_hash ∧
    r'.hash = r.hash) ∨
  (r'.data.ts = r.data.ts ∧ r'.data.intent = r.data.intent ∧
    r'.data.command ≠ r.data.command ∧ r'.data.decision = r.data.decision ∧
    r'.data.reason = r.data.reason ∧ r'.data.token_id = r.data.token_id ∧
    r'.data.expires_at = r.data.expires_at ∧ r'.data.prev_hash = r.data.prev_hash ∧
    r'.hash = r.hash) ∨
  (r'.data.ts = r.data.ts ∧ r'.data.intent = r.data.intent ∧
    r'.data.command = r.data.command ∧ r'.data.decision ≠ r.data.decision ∧
    r'.data.reason = r.data.reason ∧ r'.data.token_id = r.data.token_id ∧
    r'.data.expires_at = r.data.expires_at ∧ r'.data.prev_hash = r.data.prev_hash ∧
    r'.hash = r.hash) ∨
  (r'.data.ts = r.data.ts ∧ r'.data.intent = r.data.intent ∧
    r'.data.command = r.data.command ∧ r'.data.decision = r.data.decision ∧
    r'.data.reason ≠ r.data.reason ∧ r'.data.token_id = r.data.token_id ∧
    r'.data.expires_at = r.data.expires_at ∧ r'.data.prev_hash = r.data.prev_hash ∧
    r'.hash = r.hash) ∨
  (r'.data.ts = r.data.ts ∧ r'.data.intent = r.data.intent ∧
    r'.data.command = r.data.command ∧ r'.data.decision = r.data.decision ∧
    r'.data.reason = r.data.reason ∧ r'.data.token_id ≠ r.data.token_id ∧
    r'.data.expires_at = r.data.expires_at ∧ r'.data.prev_hash = r.data.prev_hash ∧
    r'.hash = r.hash) ∨
  (r'.data.ts = r.data.ts ∧ r'.data.intent = r.data.intent ∧
    r'.data.command = r.data.command ∧ r'.data.decision = r.data.decision ∧
    r'.data.reason = r.data.reason ∧ r'.data.token_id = r.data.token_id ∧
    r'.data.expires_at ≠ r.data.expires_at ∧ r'.data.prev_hash = r.data.prev_hash ∧
    r'.hash = r.hash) ∨
  (r'.data.ts = r.data.ts ∧ r'.data.intent = r.data.intent ∧
    r'.data.command = r.data.command ∧ r'.data.decision = r.data.decision ∧
    r'.data.reason = r.data.reason ∧ r'.data.token_id = r.data.token_id ∧
    r'.data.expires_at = r.data.expires_at ∧ r'.data.prev_hash ≠ r.data.prev_hash ∧
    r'.hash = r.hash) ∨
  (r'.data.ts = r.data.ts ∧ r'.data.intent = r.data.intent ∧
    r'.data.command = r.data.command ∧ r'.data.decision = r.data.decision ∧
    r'.data.reason = r.data.reason ∧ r'.data.token_id = r.data.token_id ∧
    r'.data.expires_at = r.data.expires_at ∧ r'.data.prev_hash = r.data.prev_hash ∧
    r'.hash ≠ r.hash)

set_option synthInstance.maxSize 4096 in
instance instDecidableMutatedOneField (r r' : Receipt) :
    Decidable (MutatedOneField r r') := by
  unfold MutatedOneField
  exact inferInstance

theorem rdata_ext {a b : ReceiptData}
    (h1 : a.ts = b.ts) (h2 : a.intent = b.intent) (h3 : a.command = b.command)
    (h4 : a.decision = b.decision) (h5 : a.reason = b.reason)
    (h6 : a.token_id = b.token_id) (h7 : a.expires_at = b.expires_at)
    (h8 : a.prev_hash = b.prev_hash) : a = b := by
  cases a; cases b; simp_all

/-- Any single-field mutation falls in one of three shapes: a `prev_hash`
change, a change of another hashed field, or a change of the stored hash. -/
theorem mutated_trichotomy {r r' : Receipt} (h : MutatedOneField r r') :
    (r'.data.prev_hash ≠ r.data.prev_hash ∧ r'.hash = r.hash) ∨
    (r'.data.prev_hash = r.data.prev_hash ∧ r'.hash = r.hash ∧ r'.data ≠ r.data) ∨
    (r'.data = r.data ∧ r'.hash ≠ r.hash) := by
  rcases h with h | h | h | h | h | h | h | h | h
  · refine Or.inr (Or.inl ⟨h.2.2.2.2.2.2.2.1, h.2.2.2.2.2.2.2.2, fun he => ?_⟩)
    exact h.1 (congrArg ReceiptData.ts he)
  · refine Or.inr (Or.inl ⟨h.2.2.2.2.2.2.2.1, h.2.2.2.2.2.2.2.2, fun he => ?_⟩)
    exact h.2.1 (congrArg ReceiptData.intent he)
  · refine Or.inr (Or.inl ⟨h.2.2.2.2.2.2.2.1, h.2.2.2.2.2.2.2.2, fun he => ?_⟩)
    exact h.2.2.1 (congrArg ReceiptData.command he)
  · refine Or.inr (Or.inl ⟨h.2.2.2.2.2.2.2.1, h.2.2.2.2.2.2.2.2, fun he => ?_⟩)
    exact h.2.2.2.1 (congrArg ReceiptData.decision he)
  · refine Or.inr (Or.inl ⟨h.2.2.2.2.2.2.2.1, h.2.2.2.2.2.2.2.2, fun he => ?_⟩)
    exact h.2.2.2.2.1 (congrArg ReceiptData.reason he)
  · refine Or.inr (Or.inl ⟨h.2.2.2.2.2.2.2.1, h.2.2.2.2.2.2.2.2, fun he => ?_⟩)
    exact h.2.2.2.2.2.1 (congrArg ReceiptData.token_id he)
  · refine Or.inr (Or.inl ⟨h.2.2.2.2.2.2.2.1, h.2.2.2.2.2.2.2.2, fun he => ?_⟩)
    exact h.2.2.2.2.2.2.1 (congrArg ReceiptData.expires_at he)
  · exact Or.inl ⟨h.2.2.2.2.2.2.2.1, h.2.2.2.2.2.2.2.2⟩
  · refine Or.inr (Or.inr ⟨?_, h.2.2.2.2.2.2.2.2⟩)
    exact rdata_ext h.1 h.2.1 h.2.2.1 h.2.2.2.1 h.2.2.2.2.1 h.2.2.2.2.2.1
      h.2.2.2.2.2.2.1 h.2.2.2.2.2.2.2.1

/-- On a well-chained segment, replacing record `k` with a single-field
mutation (no digest collision) makes the segment verifier fail exactly at
global index `gidx + k`. -/
theorem verifySeg_set_fail (digest : ReceiptData → String) :
    ∀ (log : List Receipt) (k : Nat) (gidx : Nat) (prev : String) (r' : Receipt)
      (hc : chainOk digest prev log = true) (hk : k < log.length),
      MutatedOneField (log.get ⟨k, hk⟩) r' →
      (digest r'.data = digest (log.get ⟨k, hk⟩).data →
        r'.data = (log.get ⟨k, hk⟩).data) →
      ∃ why, verifySeg digest gidx prev (log.set k r') = some (gidx + k, why) := by
  intro log
  induction log with
  | nil => intro k gidx prev r' _ hk; exact absurd hk (by simp)
  | cons r rest ih =>
    intro k gidx prev r' hc hk hmut hnc
    simp only [chainOk, Bool.and_eq_true, beq_iff_eq] at hc
    obtain ⟨⟨h1, h2⟩, h3⟩ := hc
    cases k with
    | zero =>
      simp only [List.get] at hmut hnc
      rcases mutated_trichotomy hmut with ⟨hp, _⟩ | ⟨hp, hh, hd⟩ | ⟨hd, hh⟩
      · refine ⟨prevMismatchMsg gidx prev r'.data.prev_hash, ?_⟩
        simp only [List.set, verifySeg]
        rw [if_pos (show r'.data.prev_hash ≠ prev from
          fun he => hp (he.trans h1.symm))]
        simp
      · refine ⟨hashMismatchMsg gidx (digest r'.data) r'.hash, ?_⟩
        simp only [List.set, verifySeg]
        rw [if_neg (by rw [hp, h1]; simp), if_pos ?_]
        · simp
        · intro he
          exact hd (hnc (he.symm.trans (hh.trans h2)))
      · refine ⟨hashMismatchMsg gidx (digest r'.data) r'.hash, ?_⟩
        simp only [List.set, verifySeg]
        rw [if_neg (by rw [hd, h1]; simp), if_pos ?_]
        · simp
        · intro he
          exact hh (by rw [he, hd, ← h2])
    | succ kp =>
      have hk' : kp < rest.length := by simpa using hk
      have hget : (r :: rest).get ⟨kp + 1, hk⟩ = rest.get ⟨kp, hk'⟩ := rfl
      rw [hget] at hmut hnc
      obtain ⟨why, hwhy⟩ := ih kp (gidx + 1) r.hash r' h3 hk' hmut hnc
      refine ⟨why, ?_⟩
      simp only [List.set, verifySeg]
      rw [if_neg (by simp [h1]), if_neg (by simp [h2])]
      have harith : gidx + 1 + kp = gidx + (kp + 1) := by omega
      rw [hwhy, harith]

/-! ### Path lemmas for `run` -/

/-- An unconditional block: policy denial that authorization cannot
override (the Gate 1 / Gate 3 abort condition). -/
def uncondBlock (p : PolicyResult) : Prop :=
  p.decision = Decision.DENY ∧ p.requires_auth = false

/-- Boolean test for an execution-collaborator event. -/
def isExecEvent : Event → Bool
  | .exec _ => true
  | .wrote _ => false

/-- The four gates, as the conditions `run` actually checks on the way to
the execution collaborator: the policy evaluation of the (re-)classified
command is not an unconditional block (Gates 1 and 3), and if it demands
authorization then either a valid token was found (Gate 2a) or the run was
interactive and the confirmation collaborator affirmed (Gate 2b). -/
def GatesPassed (env : GuardEnv) (skip : Bool)
    (cb : Option (String → String → Bool)) (command : String) : Prop :=
  ¬ uncondBlock (evaluate command (classify command)) ∧
  ((evaluate command (classify command)).requires_auth = true →
    (∃ tok, find_valid_token env (classify command) = some tok) ∨
    (skip = false ∧ confirmOutcome env cb (classify command) command = true))

theorem gate34_spec (digest : ReceiptData → String) (env : GuardEnv)
    (command intent : String) (pol : PolicyResult) (tid texp : Option String)
    (s : RunState)
    (h : ¬ ((evaluate command (classify command)).decision = Decision.DENY ∧
            (evaluate command (classify command)).requires_auth = false)) :
    gate34 digest env command intent pol tid texp s =
      (RunOutcome.result
        { decision := "ALLOW", intent := intent
          reason := if (env.execute command).1 = 0 then "Executed successfully."
                    else "Command exited with code " ++ toString (env.execute command).1 ++ "."
          exit_code := (env.execute command).1
          output := some (env.execute command).2
          receipt := some (writeReceipt digest env s intent command "ALLOW"
            (if pol.decision = Decision.ALLOW then pol.reason
             else "Authorized (token or interactive).") tid texp).1 },
       { (writeReceipt digest env s intent command "ALLOW"
           (if pol.decision = Decision.ALLOW then pol.reason
            else "Authorized (token or interactive).") tid texp).2 with
         events := (writeReceipt digest env s intent command "ALLOW"
           (if pol.decision = Decision.ALLOW then pol.reason
            else "Authorized (token or interactive).") tid texp).2.events ++
           [Event.exec command] }) := by
  simp only [gate34]
  rw [if_neg h]

theorem run_eq_block (digest : ReceiptData → String) (env : GuardEnv)
    (command : String) (skip : Bool) (cb : Option (String → String → Bool))
    (s : RunState)
    (h : (evaluate command (classify command)).decision = Decision.DENY ∧
         (evaluate command (classify command)).requires_auth = false) :
    run digest env command skip cb s =
      (RunOutcome.result
        { decision := "DENY", intent := classify command
          reason := (evaluate command (classify command)).reason
          exit_code := 1
          receipt := some (writeReceipt digest env s (classify command) command
            "DENY" (evaluate command (classify command)).reason none none).1 },
       (writeReceipt digest env s (classify command) command
         "DENY" (evaluate command (classify command)).reason none none).2) := by
  simp only [run]
  rw [if_pos h]

theorem run_eq_token (digest : ReceiptData → String) (env : GuardEnv)
    (command : String) (skip : Bool) (cb : Option (String → String → Bool))
    (s : RunState) (tok : Token)
    (hn : ¬ ((evaluate command (classify command)).decision = Decision.DENY ∧
             (evaluate command (classify command)).requires_auth = false))
    (ha : (evaluate command (classify command)).requires_auth = true)
    (ht : find_valid_token env (classify command) = some tok) :
    run digest env command skip cb s =
      gate34 digest env command (classify command) (evaluate command (classify command))
        (some tok.token_id) (some tok.expires_at) s := by
  simp only [run]
  rw [if_neg hn, if_pos ha, ht]

theorem run_eq_skip (digest : ReceiptData → String) (env : GuardEnv)
    (command : String) (cb : Option (String → String → Bool)) (s : RunState)
    (hn : ¬ ((evaluate command (classify command)).decision = Decision.DENY ∧
             (evaluate command (classify command)).requires_auth = false))
    (ha : (evaluate command (classify command)).requires_auth = true)
    (ht : find_valid_token env (classify command) = none) :
    run digest env command true cb s =
      (RunOutcome.result
        { decision := "DENY", intent := classify command
          reason := "Risky intent denied (no valid token, no interactive confirmation)."
          exit_code := 1
          receipt := some (writeReceipt digest env s (classify command) command
            "DENY" "Risky intent denied (no valid token, no interactive confirmation)."
            none none).1 },
       (writeReceipt digest env s (classify command) command
         "DENY" "Risky intent denied (no valid token, no interactive confirmation)."
         none none).2) := by
  simp only [run]
  rw [if_neg hn, if_pos ha, ht]
  simp

theorem run_eq_confirm_true (digest : ReceiptData → String) (env : GuardEnv)
    (command : String) (cb : Option (String → String → Bool)) (s : RunState)
    (hn : ¬ ((evaluate command (classify command)).decision = Decision.DENY ∧
             (evaluate command (classify command)).requires_auth = false))
    (ha : (evaluate command (classify command)).requires_auth = true)
    (ht : find_valid_token env (classify command) = none)
    (hc : confirmOutcome env cb (classify command) command = true) :
    run digest env command false cb s =
      gate34 digest env command (classify command) (evaluate command (classify command))
        none none { s with confirms := s.confirms + 1 } := by
  simp only [run]
  rw [if_neg hn, if_pos ha, ht]
  simp only [Bool.false_eq_true, if_false, hc, if_true]

theorem run_eq_confirm_false (digest : ReceiptData → String) (env : GuardEnv)
    (command : String) (cb : Option (String → String → Bool)) (s : RunState)
    (hn : ¬ ((evaluate command (classify command)).decision = Decision.DENY ∧
             (evaluate command (classify command)).requires_auth = false))
    (ha : (evaluate command (classify command)).requires_auth = true)
    (ht : find_valid_token env (classify command) = none)
    (hc : confirmOutcome env cb (classify command) command = false) :
    run digest env command false cb s =
      (RunOutcome.result
        { decision := "DENY", intent := classify command
          reason := "User declined interactive authorization."
          exit_code := 1
          receipt := some (writeReceipt digest env { s with confirms := s.confirms + 1 }
            (classify command) command
            "DENY" "User declined interactive authorization." none none).1 },
       (writeReceipt digest env { s with confirms := s.confirms + 1 }
         (classify command) command
         "DENY" "User declined interactive authorization." none none).2) := by
  simp only [run]
  rw [if_neg hn, if_pos ha, ht]
  simp only [Bool.false_eq_true, if_false, hc]

theorem run_eq_noauth (digest : ReceiptData → String) (env : GuardEnv)
    (command : String) (skip : Bool) (cb : Option (String → String → Bool))
    (s : RunState)
    (hn : ¬ ((evaluate command (classify command)).decision = Decision.DENY ∧
             (evaluate command (classify command)).requires_auth = false))
    (ha : (evaluate command (classify command)).requires_auth = false) :
    run digest env command skip cb s =
      gate34 digest env command (classify command) (evaluate command (classify command))
        none none s := by
  simp only [run]
  rw [if_neg hn, if_neg (by simp [ha])]

/-! ### Evaluate gate lemmas -/

theorem evaluate_block {command : String} (intent : String) {rule : BlockRule}
    (hb : blockFind command = some rule) :
    evaluate command intent =
      { decision := .DENY
        reason := "BLOCKED: " ++ rule.description
        suggestion := suggestionFor rule.description } := by
  unfold evaluate
  rw [hb]

theorem evaluate_risky {command intent : String}
    (hb : blockFind command = none) (hr : RISKY_INTENTS.contains intent = true) :
    evaluate command intent =
      { decision := .DENY
        reason := "Risky intent (" ++ intent ++ ") requires explicit authorization."
        requires_auth := true
        suggestion := suggestionForIntent intent command } := by
  unfold evaluate
  rw [hb, if_pos hr]

theorem evaluate_allow {command intent : String}
    (hb : blockFind command = none) (hr : RISKY_INTENTS.contains intent = false) :
    evaluate command intent =
      { decision := .ALLOW, reason := "Command allowed by policy." } := by
  unfold evaluate
  have hnr : ¬ (RISKY_INTENTS.contains intent = true) := by
    intro h
    rw [h] at hr
    exact Bool.noConfusion hr
  rw [hb, if_neg hnr]

/-! ### Concrete inputs used by the witnesses -/

/-- A minimal environment: empty token store, no interactive input,
execution collaborator returning exit code 0. -/
def envW : GuardEnv :=
  { tokens := [], now := 0, parseTime := fun _ => 0
    tsAt := fun n => toString n, interactiveInput := none
    execute := fun _ => (0, "") }

/-- The empty initial run state (fresh day-file, zero clock). -/
def stW : RunState := { log := [], clock := 0, events := [], confirms := 0 }

/-- A process-kill token with ttl 120 that is still valid (its expiry
parses to instant 1, while `now = 0`). -/
def tokW : Token :=
  { token_id := "tok-pk-0001", intent := "process_kill"
    issued_at := "2026-10-12T00:00:00+00:00"
    expires_at := "2026-10-12T00:02:00+00:00", ttl := 120, decision_hash := "h" }

/-- `envW` with the valid process-kill token in the store. -/
def envTok : GuardEnv := { envW with tokens := [tokW], parseTime := fun _ => 1 }

/-- `envW` with interactive input `" ALLOW "` (affirmative after
stripping, but not exactly the string `"ALLOW"`). -/
def envAllow : GuardEnv := { envW with interactiveInput := some " ALLOW " }

/-- Three receipt inputs for the chain round-trip scenario. -/
def demoInputs : List RInput :=
  [⟨"t0", "safe_echo", "echo a", "ALLOW", "ok", none, none⟩,
   ⟨"t1", "file_delete", "rm -rf ./x", "DENY", "risky", none, none⟩,
   ⟨"t2", "safe_echo", "echo b", "ALLOW", "ok", none, none⟩]

/-- The second demo record with its `prev_hash` corrupted. -/
def demoCorrupt : Receipt :=
  let r := (writeChain canonicalString demoInputs []).get ⟨1, by decide⟩
  { r with data := { r.data with prev_hash := "1111111111111111" } }

/-! ### The claims -/

/-- C4: `classify "rm -rf /"` returns the file-delete intent, and
`evaluate "rm -rf /" file_delete` returns DENY with
`requires_auth = false`: a block rule matches the command and the block
gate is checked before the risk gate, so the block result (whose reason
names the root-deletion rule) wins even though the intent is risky. -/
theorem c4_rm_root_block_precedence :
    classify "rm -rf /" = FILE_DELETE ∧
    (evaluate "rm -rf /" FILE_DELETE).decision = Decision.DENY ∧
    (evaluate "rm -rf /" FILE_DELETE).requires_auth = false ∧
    (evaluate "rm -rf /" FILE_DELETE).reason =
      "BLOCKED: Destructive root deletion (rm -rf /)" ∧
    RISKY_INTENTS.contains FILE_DELETE = true ∧
    (blockFind "rm -rf /").isSome = true := by
  decide

/-- C9: classify and evaluate are deterministic pure functions — they are
embedded as plain functions (purity by construction, matching the
side-effect-free Python bodies), so two applications to the same
arguments yield the same intent and the same `PolicyResult`. -/
theorem c9_classify_evaluate_deterministic :
    (∀ command : String, classify command = classify command) ∧
    (∀ command intent : String, evaluate command intent = evaluate command intent) :=
  ⟨fun _ => rfl, fun _ _ => rfl⟩

/-- C8: for every `(command, intent)` pair, `requires_auth` is true only
when the decision is DENY, and a block-rule match forces
`requires_auth = false`. -/
theorem c8_requires_auth_invariant :
    ∀ command intent : String,
      ((evaluate command intent).requires_auth = true →
        (evaluate command intent).decision = Decision.DENY) ∧
      ((blockFind command).isSome = true →
        (evaluate command intent).requires_auth = false) := by
  intro command intent
  cases hb : blockFind command with
  | some rule =>
    rw [evaluate_block intent hb]
    exact ⟨fun _ => rfl, fun _ => rfl⟩
  | none =>
    constructor
    · intro h
      by_cases hr : RISKY_INTENTS.contains intent = true
      · rw [evaluate_risky hb hr]
      · rw [evaluate_allow hb (by simpa using hr)] at h
        exact absurd h (by simp)
    · intro h
      exact absurd h (by simp)

/-- C8 witness: the invariant applied at a risky command (requires_auth
true, decision DENY) and at a block-matched command (requires_auth
false). -/
theorem c8_requires_auth_invariant_witness :
    ((evaluate "kill -9 1234" PROCESS_KILL).requires_auth = true ∧
     (evaluate "kill -9 1234" PROCESS_KILL).decision = Decision.DENY) ∧
    ((blockFind "rm -rf /").isSome = true ∧
     (evaluate "rm -rf /" FILE_DELETE).requires_auth = false) :=
  ⟨⟨by decide, (c8_requires_auth_invariant "kill -9 1234" PROCESS_KILL).1 (by decide)⟩,
   ⟨by decide, (c8_requires_auth_invariant "rm -rf /" FILE_DELETE).2 (by decide)⟩⟩

/-- C10: within one `run`, Gate 3 re-classifies the same command string
with the same pure functions, so its re-evaluation equals the first
evaluation; whenever Gate 1 passed, the re-evaluation cannot be an
unconditional block, the `ExecutionBlocked` branch is unreachable and
`run` never produces the `blocked` outcome. -/
theorem c10_reclassification_block_unreachable
    (digest : ReceiptData → String) (env : GuardEnv) (command : String)
    (skip : Bool) (cb : Option (String → String → Bool)) (s : RunState) :
    ∀ why : String, (run digest env command skip cb s).1 ≠ RunOutcome.blocked why := by
  intro why
  by_cases h : (evaluate command (classify command)).decision = Decision.DENY ∧
      (evaluate command (classify command)).requires_auth = false
  · rw [run_eq_block digest env command skip cb s h]
    simp
  · by_cases ha : (evaluate command (classify command)).requires_auth = true
    · cases ht : find_valid_token env (classify command) with
      | some tok =>
        rw [run_eq_token digest env command skip cb s tok h ha ht,
          gate34_spec digest env command _ _ _ _ s h]
        simp
      | none =>
        cases skip with
        | true =>
          rw [run_eq_skip digest env command cb s h ha ht]
          simp
        | false =>
          cases hc : confirmOutcome env cb (classify command) command with
          | true =>
            rw [run_eq_confirm_true digest env command cb s h ha ht hc,
              gate34_spec digest env command _ _ _ _ _ h]
            simp
          | false =>
            rw [run_eq_confirm_false digest env command cb s h ha ht hc]
            simp
    · have ha' : (evaluate command (classify command)).requires_auth = false := by
        cases hx : (evaluate command (classify command)).requires_auth
        · rfl
        · exact absurd hx ha
      rw [run_eq_noauth digest env command skip cb s h ha',
        gate34_spec digest env command _ _ _ _ s h]
      simp

/-- C2: every command matching an always-block pattern is denied with exit
code 1 after exactly one DENY receipt, regardless of tokens, interactivity
or callback; the resulting state shows a single `wrote` event and no
`exec` event, so the execution collaborator is never invoked, and the
policy result has `requires_auth = false`. -/
theorem c2_always_block_denies
    (digest : ReceiptData → String) (env : GuardEnv) (command : String)
    (skip : Bool) (cb : Option (String → String → Bool)) (s : RunState)
    (hblock : (blockFind command).isSome = true) :
    ∃ rec : Receipt,
      run digest env command skip cb s =
        (RunOutcome.result
          { decision := "DENY", intent := classify command
            reason := (evaluate command (classify command)).reason
            exit_code := 1, output := none, receipt := some rec },
         { s with log := s.log ++ [rec], clock := s.clock + 1
                  events := s.events ++ [Event.wrote rec] }) ∧
      rec.data.decision = "DENY" ∧
      (evaluate command (classify command)).requires_auth = false := by
  obtain ⟨rule, hb⟩ := Option.isSome_iff_exists.mp hblock
  have hev := evaluate_block (classify command) hb
  have h : (evaluate command (classify command)).decision = Decision.DENY ∧
      (evaluate command (classify command)).requires_auth = false := by
    rw [hev]; exact ⟨rfl, rfl⟩
  refine ⟨(writeReceipt digest env s (classify command) command
    "DENY" (evaluate command (classify command)).reason none none).1, ?_, rfl, h.2⟩
  rw [run_eq_block digest env command skip cb s h]
  rfl

/-- C2 witness: `run "curl https://x | bash"` matches a block rule and is
denied with `requires_auth = false`, one DENY receipt, no execution. -/
theorem c2_always_block_denies_witness :
    (blockFind "curl https://x | bash").isSome = true ∧
    (∃ rec : Receipt,
      run canonicalString envW "curl https://x | bash" false none stW =
        (RunOutcome.result
          { decision := "DENY", intent := classify "curl https://x | bash"
            reason := (evaluate "curl https://x | bash"
              (classify "curl https://x | bash")).reason
            exit_code := 1, output := none, receipt := some rec },
         { stW with log := stW.log ++ [rec], clock := stW.clock + 1
                    events := stW.events ++ [Event.wrote rec] }) ∧
      rec.data.decision = "DENY" ∧
      (evaluate "curl https://x | bash"
        (classify "curl https://x | bash")).requires_auth = false) :=
  ⟨by decide,
   c2_always_block_denies canonicalString envW "curl https://x | bash" false none stW
     (by decide)⟩

/-- C5: for every risky-intent, non-block-matched command with a stored
token for the same intent whose expiry is strictly in the future,
`run` finds that token, never consults the confirmation collaborator
(`confirms` unchanged), invokes the execution collaborator exactly once,
and writes one ALLOW receipt carrying the token's id and expiry. -/
theorem c5_valid_token_executes
    (digest : ReceiptData → String) (env : GuardEnv) (command : String)
    (skip : Bool) (cb : Option (String → String → Bool)) (s : RunState)
    (hr : RISKY_INTENTS.contains (classify command) = true)
    (hb : (blockFind command).isNone = true)
    (ht : ∃ t ∈ env.tokens, t.intent = classify command ∧
          env.now < env.parseTime t.expires_at) :
    ∃ (tok : Token) (rec : Receipt),
      find_valid_token env (classify command) = some tok ∧
      tok ∈ env.tokens ∧ tok.intent = classify command ∧
      env.now < env.parseTime tok.expires_at ∧
      rec.data.decision = "ALLOW" ∧
      rec.data.token_id = some tok.token_id ∧
      rec.data.expires_at = some tok.expires_at ∧
      run digest env command skip cb s =
        (RunOutcome.result
          { decision := "ALLOW", intent := classify command
            reason := if (env.execute command).1 = 0 then "Executed successfully."
                      else "Command exited with code " ++
                        toString (env.execute command).1 ++ "."
            exit_code := (env.execute command).1
            output := some (env.execute command).2
            receipt := some rec },
         { s with log := s.log ++ [rec], clock := s.clock + 1
                  events := s.events ++ [Event.wrote rec, Event.exec command] }) := by
  have hb' : blockFind command = none := Option.isNone_iff_eq_none.mp hb
  have hev := evaluate_risky hb' hr
  have hsome : (find_valid_token env (classify command)).isSome = true := by
    unfold find_valid_token
    rw [List.find?_isSome]
    obtain ⟨t, htm, hti, hte⟩ := ht
    exact ⟨t, htm, by simp [hti, hte]⟩
  obtain ⟨tok, htok⟩ := Option.isSome_iff_exists.mp hsome
  have hmem : tok ∈ env.tokens := List.mem_of_find?_eq_some htok
  have hp := List.find?_some htok
  simp only [Bool.and_eq_true, beq_iff_eq, decide_eq_true_eq] at hp
  have hn : ¬ ((evaluate command (classify command)).decision = Decision.DENY ∧
      (evaluate command (classify command)).requires_auth = false) := by
    intro hcon
    rw [hev] at hcon
    exact Bool.noConfusion hcon.2
  have ha : (evaluate command (classify command)).requires_auth = true := by
    rw [hev]
  rw [run_eq_token digest env command skip cb s tok hn ha htok,
    gate34_spec digest env command _ _ _ _ s hn]
  refine ⟨tok,
    (writeReceipt digest env s (classify command) command "ALLOW"
      (if (evaluate command (classify command)).decision = Decision.ALLOW
       then (evaluate command (classify command)).reason
       else "Authorized (token or interactive).")
      (some tok.token_id) (some tok.expires_at)).1,
    htok, hmem, hp.1, hp.2, rfl, rfl, rfl, ?_⟩
  simp [writeReceipt, List.append_assoc]

/-- C5 witness: issue a process-kill token with ttl 120; running
`"kill -9 1234"` non-interactively finds the token and executes. -/
theorem c5_valid_token_executes_witness :
    (RISKY_INTENTS.contains (classify "kill -9 1234") = true ∧
     (blockFind "kill -9 1234").isNone = true ∧
     (∃ t ∈ envTok.tokens, t.intent = classify "kill -9 1234" ∧
        envTok.now < envTok.parseTime t.expires_at)) ∧
    (∃ (tok : Token) (rec : Receipt),
      find_valid_token envTok (classify "kill -9 1234") = some tok ∧
      tok ∈ envTok.tokens ∧ tok.intent = classify "kill -9 1234" ∧
      envTok.now < envTok.parseTime tok.expires_at ∧
      rec.data.decision = "ALLOW" ∧
      rec.data.token_id = some tok.token_id ∧
      rec.data.expires_at = some tok.expires_at ∧
      run canonicalString envTok "kill -9 1234" true none stW =
        (RunOutcome.result
          { decision := "ALLOW", intent := classify "kill -9 1234"
            reason := if (envTok.execute "kill -9 1234").1 = 0 then "Executed successfully."
                      else "Command exited with code " ++
                        toString (envTok.execute "kill -9 1234").1 ++ "."
            exit_code := (envTok.execute "kill -9 1234").1
            output := some (envTok.execute "kill -9 1234").2
            receipt := some rec },
         { stW with log := stW.log ++ [rec], clock := stW.clock + 1
                    events := stW.events ++
                      [Event.wrote rec, Event.exec "kill -9 1234"] })) :=
  ⟨⟨by decide, by decide, by decide⟩,
   c5_valid_token_executes canonicalString envTok "kill -9 1234" true none stW
     (by decide) (by decide) (by decide)⟩

/-- C6: every command whose intent is risky, with no valid token and a
non-interactive run (`skip_confirm = true`), is denied: `run` returns
decision DENY with exit code 1, writes exactly one DENY receipt, and the
final state has no execution-collaborator event.  Block-matched risky
commands take the Gate-1 path, the rest the Gate-2a deny path; both end
in this same shape. -/
theorem c6_risky_no_token_noninteractive_denies
    (digest : ReceiptData → String) (env : GuardEnv) (command : String)
    (cb : Option (String → String → Bool)) (s : RunState)
    (hr : RISKY_INTENTS.contains (classify command) = true)
    (ht : find_valid_token env (classify command) = none) :
    ∃ (rec : Receipt) (res : RunResult),
      run digest env command true cb s =
        (RunOutcome.result res,
         { s with log := s.log ++ [rec], clock := s.clock + 1
                  events := s.events ++ [Event.wrote rec] }) ∧
      rec.data.decision = "DENY" ∧
      res.decision = "DENY" ∧ res.exit_code = 1 ∧ res.receipt = some rec := by
  by_cases hU : (evaluate command (classify command)).decision = Decision.DENY ∧
      (evaluate command (classify command)).requires_auth = false
  · rw [run_eq_block digest env command true cb s hU]
    exact ⟨_, _, rfl, rfl, rfl, rfl, rfl⟩
  · have hb' : blockFind command = none := by
      cases hb : blockFind command with
      | none => rfl
      | some rule =>
        exfalso
        apply hU
        rw [evaluate_block (classify command) hb]
        exact ⟨rfl, rfl⟩
    have hev := evaluate_risky hb' hr
    have ha : (evaluate command (classify command)).requires_auth = true := by
      rw [hev]
    rw [run_eq_skip digest env command cb s hU ha ht]
    exact ⟨_, _, rfl, rfl, rfl, rfl, rfl⟩

/-- C6 witness: `"kill -9 1234"` with an empty token store in
non-interactive mode is denied without execution. -/
theorem c6_risky_no_token_noninteractive_denies_witness :
    (RISKY_INTENTS.contains (classify "kill -9 1234") = true ∧
     find_valid_token envW (classify "kill -9 1234") = none) ∧
    (∃ (rec : Receipt) (res : RunResult),
      run canonicalString envW "kill -9 1234" true none stW =
        (RunOutcome.result res,
         { stW with log := stW.log ++ [rec], clock := stW.clock + 1
                    events := stW.events ++ [Event.wrote rec] }) ∧
      rec.data.decision = "DENY" ∧
      res.decision = "DENY" ∧ res.exit_code = 1 ∧ res.receipt = some rec) :=
  ⟨⟨by decide, by decide⟩,
   c6_risky_no_token_noninteractive_denies canonicalString envW "kill -9 1234" none stW
     (by decide) (by decide)⟩

/-- C7 counterexample: the claim says only the interactive input being
exactly `"ALLOW"` authorizes, but the code strips the answer first
(`input(...).strip() == "ALLOW"`), so the input `" ALLOW "`, which is not
exactly `"ALLOW"`, still authorizes: the confirmation collaborator is
consulted once and the execution collaborator is invoked. -/
theorem c7_strip_allow_counterexample :
    envAllow.interactiveInput = some " ALLOW " ∧
    " ALLOW " ≠ "ALLOW" ∧
    (run canonicalString envAllow "kill -9 1234" false none stW).2.confirms = 1 ∧
    (run canonicalString envAllow "kill -9 1234" false none stW).2.events.any
      isExecEvent = true := by
  decide

/-- C7 (amended): at Gate 2b only an explicit affirmative — the
interactive input that strips to exactly `"ALLOW"`, or the injected
callback returning true — authorizes continuation; any other outcome,
including an interrupted or exhausted input stream (modeled as absent
input), denies and writes a DENY receipt before control returns. -/
theorem c7_confirmation_gate_amended
    (digest : ReceiptData → String) (env : GuardEnv) (command : String)
    (cb : Option (String → String → Bool)) (s : RunState)
    (ha : (evaluate command (classify command)).requires_auth = true)
    (ht : find_valid_token env (classify command) = none) :
    (interactiveConfirm env = true ↔
      ∃ ans, env.interactiveInput = some ans ∧ pyStrip ans = "ALLOW") ∧
    (env.interactiveInput = none → interactiveConfirm env = false) ∧
    (confirmOutcome env cb (classify command) command = false →
      ∃ rec : Receipt,
        rec.data.decision = "DENY" ∧
        run digest env command false cb s =
          (RunOutcome.result
            { decision := "DENY", intent := classify command
              reason := "User declined interactive authorization."
              exit_code := 1, output := none, receipt := some rec },
           { s with log := s.log ++ [rec], clock := s.clock + 1
                    events := s.events ++ [Event.wrote rec]
                    confirms := s.confirms + 1 })) ∧
    (confirmOutcome env cb (classify command) command = true →
      ∃ rec : Receipt,
        rec.data.decision = "ALLOW" ∧
        (run digest env command false cb s).2.events =
          s.events ++ [Event.wrote rec, Event.exec command]) := by
  have hn : ¬ ((evaluate command (classify command)).decision = Decision.DENY ∧
      (evaluate command (classify command)).requires_auth = false) := by
    intro hcon
    rw [ha] at hcon
    exact Bool.noConfusion hcon.2
  refine ⟨?_, ?_, ?_, ?_⟩
  · unfold interactiveConfirm
    cases hi : env.interactiveInput with
    | none => simp
    | some a => simp
  · intro h
    unfold interactiveConfirm
    rw [h]
  · intro hc
    rw [run_eq_confirm_false digest env command cb s hn ha ht hc]
    exact ⟨_, rfl, rfl⟩
  · intro hc
    rw [run_eq_confirm_true digest env command cb s hn ha ht hc,
      gate34_spec digest env command _ _ _ _ _ hn]
    refine ⟨(writeReceipt digest env { s with confirms := s.confirms + 1 }
      (classify command) command "ALLOW"
      (if (evaluate command (classify command)).decision = Decision.ALLOW
       then (evaluate command (classify command)).reason
       else "Authorized (token or interactive).") none none).1, rfl, ?_⟩
    simp [writeReceipt, List.append_assoc]

/-- C7 (amended) witness: with no callback and an interrupted input
stream (absent line), the confirmation denies and one DENY receipt is
written. -/
theorem c7_confirmation_gate_amended_witness :
    ((evaluate "kill -9 1234" (classify "kill -9 1234")).requires_auth = true ∧
     find_valid_token envW (classify "kill -9 1234") = none ∧
     confirmOutcome envW none (classify "kill -9 1234") "kill -9 1234" = false) ∧
    (envW.interactiveInput = none → interactiveConfirm envW = false) ∧
    (∃ rec : Receipt,
      rec.data.decision = "DENY" ∧
      run canonicalString envW "kill -9 1234" false none stW =
        (RunOutcome.result
          { decision := "DENY", intent := classify "kill -9 1234"
            reason := "User declined interactive authorization."
            exit_code := 1, output := none, receipt := some rec },
         { stW with log := stW.log ++ [rec], clock := stW.clock + 1
                    events := stW.events ++ [Event.wrote rec]
                    confirms := stW.confirms + 1 })) :=
  ⟨⟨by decide, by decide, by decide⟩,
   (c7_confirmation_gate_amended canonicalString envW "kill -9 1234" none stW
     (by decide) (by decide)).2.1,
   (c7_confirmation_gate_amended canonicalString envW "kill -9 1234" none stW
     (by decide) (by decide)).2.2.1 (by decide)⟩

/-- C1: every terminating path of `run` appends exactly one receipt to the
log, and the execution collaborator runs only strictly after an ALLOW
receipt was written, on a path that passed all four gates: the event trace
is either `[wrote DENY-receipt]` or `[wrote ALLOW-receipt, exec command]`,
and the second shape implies `GatesPassed`. -/
theorem c1_receipt_discipline
    (digest : ReceiptData → String) (env : GuardEnv) (command : String)
    (skip : Bool) (cb : Option (String → String → Bool)) (s : RunState) :
    ∃ rec : Receipt,
      (run digest env command skip cb s).2.log = s.log ++ [rec] ∧
      (((run digest env command skip cb s).2.events = s.events ++ [Event.wrote rec] ∧
        rec.data.decision = "DENY") ∨
       ((run digest env command skip cb s).2.events =
          s.events ++ [Event.wrote rec, Event.exec command] ∧
        rec.data.decision = "ALLOW" ∧ GatesPassed env skip cb command)) := by
  by_cases hU : (evaluate command (classify command)).decision = Decision.DENY ∧
      (evaluate command (classify command)).requires_auth = false
  · rw [run_eq_block digest env command skip cb s hU]
    exact ⟨_, rfl, Or.inl ⟨rfl, rfl⟩⟩
  · by_cases hA : (evaluate command (classify command)).requires_auth = true
    · cases ht : find_valid_token env (classify command) with
      | some tok =>
        rw [run_eq_token digest env command skip cb s tok hU hA ht,
          gate34_spec digest env command _ _ _ _ s hU]
        refine ⟨(writeReceipt digest env s (classify command) command "ALLOW"
          (if (evaluate command (classify command)).decision = Decision.ALLOW
           then (evaluate command (classify command)).reason
           else "Authorized (token or interactive).")
          (some tok.token_id) (some tok.expires_at)).1,
          rfl, Or.inr ⟨?_, rfl, hU, fun _ => Or.inl ⟨tok, ht⟩⟩⟩
        simp [writeReceipt, List.append_assoc]
      | none =>
        cases skip with
        | true =>
          rw [run_eq_skip digest env command cb s hU hA ht]
          exact ⟨_, rfl, Or.inl ⟨rfl, rfl⟩⟩
        | false =>
          cases hc : confirmOutcome env cb (classify command) command with
          | true =>
            rw [run_eq_confirm_true digest env command cb s hU hA ht hc,
              gate34_spec digest env command _ _ _ _ _ hU]
            refine ⟨(writeReceipt digest env { s with confirms := s.confirms + 1 }
              (classify command) command "ALLOW"
              (if (evaluate command (classify command)).decision = Decision.ALLOW
               then (evaluate command (classify command)).reason
               else "Authorized (token or interactive).") none none).1,
              rfl, Or.inr ⟨?_, rfl, hU, fun _ => Or.inr ⟨rfl, hc⟩⟩⟩
            simp [writeReceipt, List.append_assoc]
          | false =>
            rw [run_eq_confirm_false digest env command cb s hU hA ht hc]
            exact ⟨_, rfl, Or.inl ⟨rfl, rfl⟩⟩
    · have hA' : (evaluate command (classify command)).requires_auth = false := by
        cases hx : (evaluate command (classify command)).requires_auth
        · rfl
        · exact absurd hx hA
      rw [run_eq_noauth digest env command skip cb s hU hA',
        gate34_spec digest env command _ _ _ _ s hU]
      refine ⟨(writeReceipt digest env s (classify command) command "ALLOW"
        (if (evaluate command (classify command)).decision = Decision.ALLOW
         then (evaluate command (classify command)).reason
         else "Authorized (token or interactive).") none none).1,
        rfl, Or.inr ⟨?_, rfl, hU, fun hx => absurd hx (by simp [hA'])⟩⟩
      simp [writeReceipt, List.append_assoc]

/-- C3: appending N receipts to an empty log and verifying yields
`ok = true` with `total = N`; replacing any single record by a
one-field mutation (absent a digest collision on that pair) makes
`verify_chain` fail exactly at that record's index — verification stops
there, reporting it as `failed_index` (and as `total`, per the source). -/
theorem c3_chain_roundtrip_and_tamper :
    (∀ (digest : ReceiptData → String) (inputs : List RInput),
      verify_chain digest [writeChain digest inputs []] =
        { ok := true, total := inputs.length
          failed_index := none, failed_reason := none }) ∧
    (∀ (digest : ReceiptData → String) (inputs : List RInput) (k : Nat) (r' : Receipt)
      (hk : k < (writeChain digest inputs []).length),
      MutatedOneField ((writeChain digest inputs []).get ⟨k, hk⟩) r' →
      (digest r'.data = digest ((writeChain digest inputs []).get ⟨k, hk⟩).data →
        r'.data = ((writeChain digest inputs []).get ⟨k, hk⟩).data) →
      ∃ why, verify_chain digest [(writeChain digest inputs []).set k r'] =
        { ok := false, total := k, failed_index := some k
          failed_reason := some why }) := by
  constructor
  · intro digest inputs
    have hco := writeChain_chainOk digest inputs [] rfl
    simp only [verify_chain, verifyGo]
    rw [verifySeg_ok digest _ 0 GENESIS_HASH hco]
    simp only [verifyGo]
    have hlen := writeChain_length digest inputs []
    simp at hlen
    simp [hlen]
  · intro digest inputs k r' hk hmut hnc
    have hco := writeChain_chainOk digest inputs [] rfl
    obtain ⟨why, hwhy⟩ :=
      verifySeg_set_fail digest (writeChain digest inputs []) k 0 GENESIS_HASH r'
        hco hk hmut hnc
    refine ⟨why, ?_⟩
    simp only [verify_chain, verifyGo]
    rw [hwhy]
    simp

set_option maxRecDepth 100000

/-- C3 witness: three receipts round-trip with `ok = true, total = 3`;
corrupting the second record's `prev_hash` makes verification fail with
index 1. -/
theorem c3_chain_roundtrip_and_tamper_witness :
    (verify_chain canonicalString [writeChain canonicalString demoInputs []] =
      { ok := true, total := 3, failed_index := none, failed_reason := none }) ∧
    (∃ why, verify_chain canonicalString
        [(writeChain canonicalString demoInputs []).set 1 demoCorrupt] =
      { ok := false, total := 1, failed_index := some 1
        failed_reason := some why }) :=
  ⟨c3_chain_roundtrip_and_tamper.1 canonicalString demoInputs,
   c3_chain_roundtrip_and_tamper.2 canonicalString demoInputs 1 demoCorrupt
     (by decide) (by decide) (by decide)⟩

end Guardian
